import Mathlib

/-!
# Single-instance guards

A shallow embedding of the two single-instance programs

* `linux_systems/file_locking/single_instance_flock.c`  (namespace `Flock`)
* `linux_systems/file_locking/single_instance_socket.c` (namespace `Sock`)

over an explicit model of the part of the Linux kernel they talk to: a
directory (path to inode), file contents, one exclusive `flock` owner per
inode, the table of open descriptors and the abstract socket namespace.

Every system call is a function `Kernel → ... → result × Kernel`.  A system
call that can fail for reasons outside the modelled state (permissions,
resource limits, ...) takes a `fault : Option Errno`: `some e` makes the call
fail with `errno = e`, `none` lets the modelled kernel state decide.

A descriptor is identified with the open file description it refers to (the
programs never `dup` or `fork`), and a failed call is an `Except.error`
instead of the `-1` return value.
-/

namespace SingleInstance

/-! ## Basic types and constants -/

abbrev Path := String
abbrev Ino := Nat
abbrev Fd := Nat
abbrev Pid := Int
abbrev Errno := Nat

def ENOENT : Errno := 2
def EBADF : Errno := 9
def EWOULDBLOCK : Errno := 11
def EADDRINUSE : Errno := 98
def EXIT_FAILURE : Nat := 1
def EXIT_SUCCESS : Nat := 0

/-- The zero byte. -/
def NUL : Char := Char.ofNat 0

/-- The line feed character. -/
def LF : Char := Char.ofNat 10

/-- Point update of a table. -/
def upd {α β : Type} [DecidableEq α] (f : α → β) (a : α) (b : β) : α → β :=
  fun x => if x = a then b else f x

/-! ## Kernel state -/

/-- An open file description of a regular file. -/
structure OpenFile where
  owner : Pid
  ino : Ino
  off : Nat
deriving DecidableEq

/-- The modelled kernel state. -/
structure Kernel where
  /-- directory entries: path to inode -/
  paths : Path → Option Ino
  /-- file contents per inode -/
  content : Ino → List Char
  /-- exclusive flock owner per inode (an open file description) -/
  lock : Ino → Option Fd
  /-- open regular files -/
  files : Fd → Option OpenFile
  /-- open sockets, with the owning process -/
  socks : Fd → Option Pid
  /-- abstract socket namespace: bound name to owning socket -/
  bound : List Char → Option Fd
  nextIno : Ino
  nextFd : Fd

/-- A kernel with no files, no descriptors and no bound names. -/
def Kernel.empty : Kernel :=
  { paths := fun _ => none, content := fun _ => [], lock := fun _ => none,
    files := fun _ => none, socks := fun _ => none, bound := fun _ => none,
    nextIno := 0, nextFd := 3 }

/-! ## System calls -/

/-- The call `open(path, O_CREAT | O_RDWR, 0666)`: opens the existing file, or
creates an empty one with no lock; the file offset starts at 0. -/
def sys_open (k : Kernel) (pid : Pid) (path : Path) (fault : Option Errno) :
    Except Errno Fd × Kernel :=
  match fault with
  | some e => (.error e, k)
  | none =>
    match k.paths path with
    | some i =>
      (.ok k.nextFd,
        { k with files := upd k.files k.nextFd (some ⟨pid, i, 0⟩), nextFd := k.nextFd + 1 })
    | none =>
      (.ok k.nextFd,
        { k with paths := upd k.paths path (some k.nextIno)
                 content := upd k.content k.nextIno []
                 lock := upd k.lock k.nextIno none
                 files := upd k.files k.nextFd (some ⟨pid, k.nextIno, 0⟩)
                 nextIno := k.nextIno + 1
                 nextFd := k.nextFd + 1 })

/-- The call `flock(fd, LOCK_EX | LOCK_NB)`: granted when the inode has no
lock owner or is already locked through this same description; otherwise it
fails at once with `EWOULDBLOCK`. -/
def sys_flock_ex_nb (k : Kernel) (fd : Fd) (fault : Option Errno) :
    Except Errno Unit × Kernel :=
  match fault with
  | some e => (.error e, k)
  | none =>
    match k.files fd with
    | none => (.error EBADF, k)
    | some f =>
      match k.lock f.ino with
      | none => (.ok (), { k with lock := upd k.lock f.ino (some fd) })
      | some h => if h = fd then (.ok (), k) else (.error EWOULDBLOCK, k)

/-- The call `flock(fd, LOCK_UN)`. -/
def sys_flock_un (k : Kernel) (fd : Fd) : Except Errno Unit × Kernel :=
  match k.files fd with
  | none => (.error EBADF, k)
  | some f =>
    if k.lock f.ino = some fd then (.ok (), { k with lock := upd k.lock f.ino none })
    else (.ok (), k)

/-- Resize a byte sequence to `len`, zero-filling when it grows. -/
def resize (c : List Char) (len : Nat) : List Char :=
  c.take len ++ List.replicate (len - c.length) NUL

/-- The call `ftruncate(fd, len)`; the file offset is not moved. -/
def sys_ftruncate (k : Kernel) (fd : Fd) (len : Nat) (fault : Option Errno) :
    Except Errno Unit × Kernel :=
  match fault with
  | some e => (.error e, k)
  | none =>
    match k.files fd with
    | none => (.error EBADF, k)
    | some f => (.ok (), { k with content := upd k.content f.ino (resize (k.content f.ino) len) })

/-- Overwrite `data` into `c` at offset `off`, zero-filling a gap. -/
def writeAt (c : List Char) (off : Nat) (data : List Char) : List Char :=
  resize c off ++ data ++ c.drop (off + data.length)

/-- The call `write(fd, data, data.length)` at the current file offset, which
then advances; returns the number of bytes written. -/
def sys_write (k : Kernel) (fd : Fd) (data : List Char) (fault : Option Errno) :
    Except Errno Nat × Kernel :=
  match fault with
  | some e => (.error e, k)
  | none =>
    match k.files fd with
    | none => (.error EBADF, k)
    | some f =>
      (.ok data.length,
        { k with content := upd k.content f.ino (writeAt (k.content f.ino) f.off data)
                 files := upd k.files fd (some { f with off := f.off + data.length }) })

/-- The call `close(fd)`: the descriptor is gone, and with it the flock it
owns and the abstract names bound to it. -/
def sys_close (k : Kernel) (fd : Fd) : Kernel :=
  { k with files := upd k.files fd none
           socks := upd k.socks fd none
           lock := fun i => if k.lock i = some fd then none else k.lock i
           bound := fun a => if k.bound a = some fd then none else k.bound a }

/-- The call `unlink(path)`: removes the directory entry; an inode that is
still open lives on without a name. -/
def sys_unlink (k : Kernel) (path : Path) (fault : Option Errno) :
    Except Errno Unit × Kernel :=
  match fault with
  | some e => (.error e, k)
  | none =>
    match k.paths path with
    | none => (.error ENOENT, k)
    | some _ => (.ok (), { k with paths := upd k.paths path none })

/-- Does descriptor `fd` belong to process `pid`? -/
def ownedBy (k : Kernel) (pid : Pid) (fd : Fd) : Bool :=
  (match k.files fd with
   | some f => decide (f.owner = pid)
   | none => false) ||
  decide (k.socks fd = some pid)

/-- Process termination (`exit`, return from `main`, or a fatal signal): the
kernel closes every descriptor of the process, which drops its locks and its
bound names; files stay in place. -/
def sys_exit (k : Kernel) (pid : Pid) : Kernel :=
  { k with
    files := fun fd => match k.files fd with
      | some f => if f.owner = pid then none else some f
      | none => none
    socks := fun fd => if k.socks fd = some pid then none else k.socks fd
    lock := fun i => match k.lock i with
      | some fd => if ownedBy k pid fd then none else some fd
      | none => none
    bound := fun a => match k.bound a with
      | some fd => if ownedBy k pid fd then none else some fd
      | none => none }

/-! ## Process-level observations -/

/-- A line on standard error. -/
inductive Diag
  | perror (msg : String) (e : Errno)
  | text (msg : String)
deriving DecidableEq

/-- System calls, as recorded in a call log. -/
inductive Call
  | c_open | c_flock_ex_nb | c_flock_un | c_ftruncate | c_write | c_close | c_unlink
  | c_socket | c_bind | c_exit
deriving DecidableEq

/-- How a call of a C function ends: it returns a descriptor to its caller, or
the process is terminated from inside the function with an exit status. -/
inductive Outcome
  | returned (fd : Fd)
  | exited (status : Nat)
deriving DecidableEq

/-- Everything observable about one call of `init_application_lock`: how it
ends, what it printed on standard error, the system calls it made, and the
kernel state it leaves.  (The lines printed on standard output are not
modelled.) -/
structure Result where
  outcome : Outcome
  stderr : List Diag
  calls : List Call
  kernel : Kernel

/-! ## C library helpers -/

/-- The text that the conversion `%d` produces. -/
def fmt_d (v : Int) : List Char :=
  if v < 0 then '-' :: Nat.toDigits 10 v.natAbs else Nat.toDigits 10 v.natAbs

/-- The buffer after `snprintf(buf, size, ...)` where the format expands to
`formatted`: at most `size - 1` characters, then the terminator. -/
def snprintf (size : Nat) (formatted : List Char) : List Char :=
  formatted.take (size - 1) ++ [NUL]

/-- The C `strlen`: number of characters before the first zero byte. -/
def strlen (buf : List Char) : Nat :=
  (buf.takeWhile (fun c => decide (c ≠ NUL))).length

/-! ## single_instance_flock.c -/

namespace Flock

def LOCK_FILE : Path := "/tmp/iobroker_service.lock"

def MSG_OPEN : String := "FATAL: Could not open lock file"
def MSG_RUNNING : String := "ERROR: Application is already running! (Lock held)\n"
def MSG_LOCK : String := "ERROR: Failed to acquire lock"

/-- Environment failures for the calls of `init_application_lock`. -/
structure Env where
  f_open : Option Errno
  f_flock : Option Errno
  f_ftruncate : Option Errno
  f_write : Option Errno

/-- No environment failure. -/
def Env.ok : Env := ⟨none, none, none, none⟩

/-- The diagnostic printed when `flock` fails with `errno = e`. -/
def lockDiag (e : Errno) : Diag :=
  if e = EWOULDBLOCK then Diag.text MSG_RUNNING else Diag.perror MSG_LOCK e

/-- The contents of `pid_str` after the `snprintf` call. -/
def pid_str (pid : Pid) : List Char :=
  snprintf 16 (fmt_d pid ++ [LF])

/-- The bytes handed to `write`: `pid_str`, `strlen(pid_str)`. -/
def pidText (pid : Pid) : List Char :=
  (pid_str pid).take (strlen (pid_str pid))

/-- The function `init_application_lock` of single_instance_flock.c. -/
def init_application_lock (k : Kernel) (pid : Pid) (env : Env) : Result :=
  match sys_open k pid LOCK_FILE env.f_open with
  | (.error e, k1) =>
    { outcome := .exited EXIT_FAILURE, stderr := [Diag.perror MSG_OPEN e],
      calls := [.c_open, .c_exit], kernel := sys_exit k1 pid }
  | (.ok fd, k1) =>
    match sys_flock_ex_nb k1 fd env.f_flock with
    | (.error e, k2) =>
      { outcome := .exited EXIT_FAILURE, stderr := [lockDiag e],
        calls := [.c_open, .c_flock_ex_nb, .c_close, .c_exit],
        kernel := sys_exit (sys_close k2 fd) pid }
    | (.ok _, k2) =>
      let k3 := (sys_ftruncate k2 fd 0 env.f_ftruncate).2
      let k4 := (sys_write k3 fd (pidText pid) env.f_write).2
      { outcome := .returned fd, stderr := [],
        calls := [.c_open, .c_flock_ex_nb, .c_ftruncate, .c_write], kernel := k4 }

/-- The function `cleanup_application_lock` of single_instance_flock.c; the
argument is the value returned by `init_application_lock`, so it is never the
`-1` that the guard `fd != -1` excludes. -/
def cleanup_application_lock (k : Kernel) (fd : Fd) (f_unlink : Option Errno) : Kernel :=
  let k1 := (sys_flock_un k fd).2
  let k2 := sys_close k1 fd
  (sys_unlink k2 LOCK_FILE f_unlink).2

/-! ### Interleaved execution of single_instance_flock.c

Each process runs `main`: `init_application_lock`, then (after the key press)
`cleanup_application_lock`, then it returns.  One step is one system call. -/

/-- Where a process stands in `main`. -/
inductive Pc
  /-- before `open` -/
  | start
  /-- `open` returned `fd`; before `flock(fd, LOCK_EX | LOCK_NB)` -/
  | opened (fd : Fd)
  /-- lock granted; before `ftruncate` -/
  | locked (fd : Fd)
  /-- before `write` -/
  | truncated (fd : Fd)
  /-- `init_application_lock` has returned `fd`; `cleanup_application_lock`
  has not started -/
  | holding (fd : Fd)
  /-- inside cleanup, after `flock(fd, LOCK_UN)`; before `close` -/
  | unlocked (fd : Fd)
  /-- inside cleanup, after `close`; before `unlink` -/
  | closed
  /-- `flock` failed, the diagnostic is printed; before `close(fd)` -/
  | failing (fd : Fd) (d : Diag)
  /-- about to terminate with the given status -/
  | stopping (status : Nat) (d : Option Diag)
  /-- terminated -/
  | exited (status : Nat) (d : Option Diag)
deriving DecidableEq

/-- Kernel state together with the position of every process. -/
structure State where
  kernel : Kernel
  pc : Pid → Pc

/-- All processes are about to call `init_application_lock`. -/
def State.initial (k : Kernel) : State := ⟨k, fun _ => Pc.start⟩

/-- One atomic step of the system. -/
inductive Event
  /-- process `p` performs its next system call, with environment fault -/
  | run (p : Pid) (fault : Option Errno)
  /-- an actor outside the program deletes a path -/
  | unlinkExt (path : Path)
deriving DecidableEq

/-- Is the event a step of one of the program's processes? -/
def Event.isRun : Event → Bool
  | .run _ _ => true
  | .unlinkExt _ => false

/-- The step function. -/
def step (s : State) : Event → State
  | .run p fault =>
    match s.pc p with
    | .start =>
      match sys_open s.kernel p LOCK_FILE fault with
      | (.ok fd, k) => ⟨k, upd s.pc p (.opened fd)⟩
      | (.error e, k) =>
        ⟨k, upd s.pc p (.stopping EXIT_FAILURE (some (Diag.perror MSG_OPEN e)))⟩
    | .opened fd =>
      match sys_flock_ex_nb s.kernel fd fault with
      | (.ok _, k) => ⟨k, upd s.pc p (.locked fd)⟩
      | (.error e, k) => ⟨k, upd s.pc p (.failing fd (lockDiag e))⟩
    | .locked fd => ⟨(sys_ftruncate s.kernel fd 0 fault).2, upd s.pc p (.truncated fd)⟩
    | .truncated fd => ⟨(sys_write s.kernel fd (pidText p) fault).2, upd s.pc p (.holding fd)⟩
    | .holding fd => ⟨(sys_flock_un s.kernel fd).2, upd s.pc p (.unlocked fd)⟩
    | .unlocked fd => ⟨sys_close s.kernel fd, upd s.pc p .closed⟩
    | .closed =>
      ⟨(sys_unlink s.kernel LOCK_FILE fault).2, upd s.pc p (.stopping EXIT_SUCCESS none)⟩
    | .failing fd d => ⟨sys_close s.kernel fd, upd s.pc p (.stopping EXIT_FAILURE (some d))⟩
    | .stopping st d => ⟨sys_exit s.kernel p, upd s.pc p (.exited st d)⟩
    | .exited _ _ => s
  | .unlinkExt path => ⟨(sys_unlink s.kernel path none).2, s.pc⟩

/-- Run a schedule. -/
def run (s : State) (evs : List Event) : State := evs.foldl step s

/-- Process `p` has obtained a successful return from `init_application_lock`
and has not yet completed `cleanup_application_lock`. -/
def isHolder (s : State) (p : Pid) : Bool :=
  match s.pc p with
  | .holding _ => true
  | .unlocked _ => true
  | .closed => true
  | _ => false

/-- Process `p` is between the return of `init_application_lock` and the
start of `cleanup_application_lock`. -/
def inMainLoop (s : State) (p : Pid) : Bool :=
  match s.pc p with
  | .holding _ => true
  | _ => false

end Flock

/-! ## single_instance_socket.c -/

namespace Sock

/-- The character array of the string literal `LOCK_NAME`. -/
def LOCK_NAME : List Char := "modbus_master_app_lock".toList ++ [NUL]

def MSG_SOCKET : String := "FATAL: Could not create lock socket"
def MSG_RUNNING : String := "ERROR: Application is already running! (Socket bound)\n"
def MSG_BIND : String := "ERROR: Failed to bind lock socket"

/-- Linux value of `AF_UNIX`. -/
def AF_UNIX : Nat := 1
/-- Linux value of `sizeof(sa_family_t)`. -/
def SIZEOF_SA_FAMILY_T : Nat := 2
/-- Linux value of `sizeof(addr.sun_path)`. -/
def SIZEOF_SUN_PATH : Nat := 108
def EINVAL : Errno := 22

/-- The C `struct sockaddr_un`. -/
structure sockaddr_un where
  sun_family : Nat
  sun_path : List Char
deriving DecidableEq

/-- The bytes that `strncpy(dest, src, n)` stores at `dest`: the characters of
`src` up to its terminator, at most `n` of them, then zero bytes up to `n`. -/
def strncpy (src : List Char) (n : Nat) : List Char :=
  (src.take (strlen src)).take n ++ List.replicate (n - strlen src) NUL

/-- Store `bytes` into `dst` from index `off` on. -/
def blit (dst : List Char) (off : Nat) (bytes : List Char) : List Char :=
  dst.take off ++ bytes ++ dst.drop (off + bytes.length)

/-- Step 2 of `init_application_lock` and the length argument of `bind`, for
a lock name `name` (the character array of a C string). -/
def mkAddr (name : List Char) : sockaddr_un × Nat :=
  let a0 : sockaddr_un := ⟨0, List.replicate SIZEOF_SUN_PATH NUL⟩
  let a1 : sockaddr_un := { a0 with sun_family := AF_UNIX }
  let a2 : sockaddr_un :=
    { a1 with sun_path := blit a1.sun_path 1 (strncpy name (SIZEOF_SUN_PATH - 2)) }
  (a2, SIZEOF_SA_FAMILY_T + strlen name + 1)

/-- The name that the kernel binds for an address in the abstract namespace:
all `len - sizeof(sa_family_t)` bytes of `sun_path`, the leading zero byte
included. -/
def abstractName (a : sockaddr_un) (len : Nat) : List Char :=
  a.sun_path.take (len - SIZEOF_SA_FAMILY_T)

/-- The path named by a pathname address. -/
def pathName (a : sockaddr_un) (len : Nat) : Path :=
  String.mk ((a.sun_path.take (len - SIZEOF_SA_FAMILY_T)).takeWhile (fun c => decide (c ≠ NUL)))

/-- The call `socket(AF_UNIX, SOCK_STREAM, 0)`. -/
def sys_socket (k : Kernel) (pid : Pid) (fault : Option Errno) : Except Errno Fd × Kernel :=
  match fault with
  | some e => (.error e, k)
  | none => (.ok k.nextFd, { k with socks := upd k.socks k.nextFd (some pid), nextFd := k.nextFd + 1 })

/-- The call `bind(fd, &addr, len)` for an `AF_UNIX` address.  When
`sun_path[0]` is zero the name lives in the abstract namespace and no file is
created; otherwise the kernel creates a socket file at the path.  (Autobind,
for `len = sizeof(sa_family_t)`, is not modelled.) -/
def sys_bind (k : Kernel) (fd : Fd) (a : sockaddr_un) (len : Nat) (fault : Option Errno) :
    Except Errno Unit × Kernel :=
  match fault with
  | some e => (.error e, k)
  | none =>
    match k.socks fd with
    | none => (.error EBADF, k)
    | some _ =>
      if len ≤ SIZEOF_SA_FAMILY_T then (.error EINVAL, k)
      else if a.sun_path.head? = some NUL then
        match k.bound (abstractName a len) with
        | some _ => (.error EADDRINUSE, k)
        | none => (.ok (), { k with bound := upd k.bound (abstractName a len) (some fd) })
      else
        match k.paths (pathName a len) with
        | some _ => (.error EADDRINUSE, k)
        | none =>
          (.ok (), { k with paths := upd k.paths (pathName a len) (some k.nextIno)
                            content := upd k.content k.nextIno []
                            lock := upd k.lock k.nextIno none
                            nextIno := k.nextIno + 1 })

/-- Environment failures for the calls of `init_application_lock`. -/
structure Env where
  f_socket : Option Errno
  f_bind : Option Errno

/-- No environment failure. -/
def Env.ok : Env := ⟨none, none⟩

/-- The diagnostic printed when `bind` fails with `errno = e`. -/
def bindDiag (e : Errno) : Diag :=
  if e = EADDRINUSE then Diag.text MSG_RUNNING else Diag.perror MSG_BIND e

/-- The abstract name under which the program binds. -/
def lockAddr : List Char := abstractName (mkAddr LOCK_NAME).1 (mkAddr LOCK_NAME).2

/-- The function `init_application_lock` of single_instance_socket.c. -/
def init_application_lock (k : Kernel) (pid : Pid) (env : Env) : Result :=
  match sys_socket k pid env.f_socket with
  | (.error e, k1) =>
    { outcome := .exited EXIT_FAILURE, stderr := [Diag.perror MSG_SOCKET e],
      calls := [.c_socket, .c_exit], kernel := sys_exit k1 pid }
  | (.ok fd, k1) =>
    match sys_bind k1 fd (mkAddr LOCK_NAME).1 (mkAddr LOCK_NAME).2 env.f_bind with
    | (.error e, k2) =>
      { outcome := .exited EXIT_FAILURE, stderr := [bindDiag e],
        calls := [.c_socket, .c_bind, .c_close, .c_exit],
        kernel := sys_exit (sys_close k2 fd) pid }
    | (.ok _, k2) =>
      { outcome := .returned fd, stderr := [], calls := [.c_socket, .c_bind], kernel := k2 }

/-- The function `cleanup_application_lock` of single_instance_socket.c, on a
descriptor returned by `init_application_lock`. -/
def cleanup_application_lock (k : Kernel) (fd : Fd) : Kernel :=
  sys_close k fd

/-! ### Interleaved execution of single_instance_socket.c -/

/-- Where a process stands in `main`. -/
inductive Pc
  /-- before `socket` -/
  | start
  /-- `socket` returned `fd`; before `bind` -/
  | created (fd : Fd)
  /-- `init_application_lock` has returned `fd`; cleanup has not run -/
  | holding (fd : Fd)
  /-- `bind` failed, the diagnostic is printed; before `close(fd)` -/
  | failing (fd : Fd) (d : Diag)
  /-- about to terminate with the given status -/
  | stopping (status : Nat) (d : Option Diag)
  /-- terminated -/
  | exited (status : Nat) (d : Option Diag)
deriving DecidableEq

/-- Kernel state together with the position of every process. -/
structure State where
  kernel : Kernel
  pc : Pid → Pc

/-- All processes are about to call `init_application_lock`. -/
def State.initial (k : Kernel) : State := ⟨k, fun _ => Pc.start⟩

/-- One atomic step: process `p` performs its next system call. -/
structure Event where
  p : Pid
  fault : Option Errno
deriving DecidableEq

/-- The step function. -/
def step (s : State) (ev : Event) : State :=
  match s.pc ev.p with
  | .start =>
    match sys_socket s.kernel ev.p ev.fault with
    | (.ok fd, k) => ⟨k, upd s.pc ev.p (.created fd)⟩
    | (.error e, k) =>
      ⟨k, upd s.pc ev.p (.stopping EXIT_FAILURE (some (Diag.perror MSG_SOCKET e)))⟩
  | .created fd =>
    match sys_bind s.kernel fd (mkAddr LOCK_NAME).1 (mkAddr LOCK_NAME).2 ev.fault with
    | (.ok _, k) => ⟨k, upd s.pc ev.p (.holding fd)⟩
    | (.error e, k) => ⟨k, upd s.pc ev.p (.failing fd (bindDiag e))⟩
  | .holding fd => ⟨sys_close s.kernel fd, upd s.pc ev.p (.stopping EXIT_SUCCESS none)⟩
  | .failing fd d => ⟨sys_close s.kernel fd, upd s.pc ev.p (.stopping EXIT_FAILURE (some d))⟩
  | .stopping st d => ⟨sys_exit s.kernel ev.p, upd s.pc ev.p (.exited st d)⟩
  | .exited _ _ => s

/-- Run a schedule. -/
def run (s : State) (evs : List Event) : State := evs.foldl step s

end Sock

/-! ## Classification of results -/

/-- The call failed with the already-running outcome: the process exits with
`EXIT_FAILURE` after printing exactly the given already-running message. -/
def Result.isAlreadyRunning (r : Result) (msg : String) : Bool :=
  decide (r.outcome = .exited EXIT_FAILURE) && decide (r.stderr = [Diag.text msg])

/-- The call failed with the I/O-error outcome: the process exits with
`EXIT_FAILURE` after a single `perror` line. -/
def Result.isIoError (r : Result) : Bool :=
  decide (r.outcome = .exited EXIT_FAILURE) &&
  match r.stderr with
  | [Diag.perror _ _] => true
  | _ => false

/-- The call returned a descriptor to its caller. -/
def Result.isSuccess (r : Result) : Bool :=
  match r.outcome with
  | .returned _ => true
  | .exited _ => false

/-- A kernel state in which process 1 holds the flock on the lock file. -/
def Flock.heldKernel : Kernel :=
  (Flock.init_application_lock Kernel.empty 1 Flock.Env.ok).kernel

/-- A kernel state in which process 1 has bound the lock name. -/
def Sock.heldKernel : Kernel :=
  (Sock.init_application_lock Kernel.empty 1 Sock.Env.ok).kernel

/-- The four steps of `init_application_lock` of process `p`, run without
environment faults: `open`, `flock`, `ftruncate`, `write`. -/
def Flock.acquireSteps (p : Pid) : List Flock.Event :=
  [.run p none, .run p none, .run p none, .run p none]

/-- A schedule of three processes in which only the program's own calls occur:
process 1 acquires; process 2 opens the lock file; process 1 starts its
cleanup and unlocks; process 2 is granted the lock and returns from
`init_application_lock`; process 1 finishes its cleanup with `close` and
`unlink`; process 3 then runs `init_application_lock`. -/
def Flock.raceTrace : List Flock.Event :=
  Flock.acquireSteps 1 ++
  [.run 2 none, .run 1 none, .run 2 none, .run 2 none, .run 2 none, .run 1 none, .run 1 none] ++
  Flock.acquireSteps 3

/-- Process 1 acquires, an external actor deletes the lock file, process 2
acquires. -/
def Flock.deletionTrace : List Flock.Event :=
  Flock.acquireSteps 1 ++ [.unlinkExt Flock.LOCK_FILE] ++ Flock.acquireSteps 2

/-! ## Sequential acquire/release runs -/

/-- One completed acquire/release: the descriptor that `init_application_lock`
returned, the kernel state at that return, and the kernel state after
`cleanup_application_lock`. -/
structure Session where
  fd : Fd
  acquired : Kernel
  released : Kernel

/-- Process `pid` runs `init_application_lock` and, when that returns,
`cleanup_application_lock` on the returned descriptor (file guard, no
environment fault); `none` when the acquire fails. -/
def Flock.session (k : Kernel) (pid : Pid) : Option Session :=
  match (Flock.init_application_lock k pid Flock.Env.ok).outcome with
  | .returned fd =>
    some ⟨fd, (Flock.init_application_lock k pid Flock.Env.ok).kernel,
      Flock.cleanup_application_lock (Flock.init_application_lock k pid Flock.Env.ok).kernel
        fd none⟩
  | .exited _ => none

/-- The listed processes run one session each, one after the other; the run
stops at the first failed acquire. -/
def Flock.sessions (k : Kernel) : List Pid → List Session
  | [] => []
  | p :: ps =>
    match Flock.session k p with
    | none => []
    | some s => s :: Flock.sessions s.released ps

/-- No process holds the file guard's lock: the file at the lock path, if
there is one, is not locked. -/
def Flock.Free (k : Kernel) : Prop :=
  ∀ i, k.paths Flock.LOCK_FILE = some i → k.lock i = none

/-- After the session the file guard's lock has no holder: the session held
the lock on the file it had open, that file is unlocked again, and the lock
path is removed. -/
def Flock.Released (s : Session) : Prop :=
  (∃ f, s.acquired.files s.fd = some f ∧ s.acquired.paths Flock.LOCK_FILE = some f.ino ∧
    s.acquired.lock f.ino = some s.fd ∧ s.released.lock f.ino = none) ∧
  s.released.paths Flock.LOCK_FILE = none

/-- Process `pid` runs `init_application_lock` and, when that returns,
`cleanup_application_lock` on the returned descriptor (socket guard, no
environment fault); `none` when the acquire fails. -/
def Sock.session (k : Kernel) (pid : Pid) : Option Session :=
  match (Sock.init_application_lock k pid Sock.Env.ok).outcome with
  | .returned fd =>
    some ⟨fd, (Sock.init_application_lock k pid Sock.Env.ok).kernel,
      Sock.cleanup_application_lock (Sock.init_application_lock k pid Sock.Env.ok).kernel fd⟩
  | .exited _ => none

/-- The listed processes run one session each, one after the other; the run
stops at the first failed acquire. -/
def Sock.sessions (k : Kernel) : List Pid → List Session
  | [] => []
  | p :: ps =>
    match Sock.session k p with
    | none => []
    | some s => s :: Sock.sessions s.released ps

/-- No process holds the socket guard's lock: the lock name is unbound. -/
def Sock.Free (k : Kernel) : Prop :=
  k.bound Sock.lockAddr = none

/-- After the session the socket guard's lock has no holder: the session had
the lock name bound to its descriptor, and the name is unbound again. -/
def Sock.Released (s : Session) : Prop :=
  s.acquired.bound Sock.lockAddr = some s.fd ∧ s.released.bound Sock.lockAddr = none

/-! ## Holders and the invariant of the socket guard -/

/-- The descriptor that a process of the socket program has open. -/
def Sock.Pc.desc : Sock.Pc → Option Fd
  | .created fd => some fd
  | .holding fd => some fd
  | .failing fd _ => some fd
  | .start => none
  | .stopping _ _ => none
  | .exited _ _ => none

/-- Process `p` has obtained a successful return from `init_application_lock`
and has not yet completed `cleanup_application_lock` (whose only system call
is `close`). -/
def Sock.isHolder (s : Sock.State) (p : Pid) : Bool :=
  match s.pc p with
  | .holding _ => true
  | _ => false

/-- Descriptors not yet handed out are not open files. -/
def Kernel.FreshFiles (k : Kernel) : Prop :=
  ∀ fd, k.nextFd ≤ fd → k.files fd = none

/-- The invariant of the interleaved socket program: unallocated descriptors
are unused; the descriptor a process has open is a socket of that process; and
the lock name is bound to the descriptor of every holder. -/
def Sock.Inv (s : Sock.State) : Prop :=
  s.kernel.FreshFiles ∧
  (∀ p fd, (s.pc p).desc = some fd →
    s.kernel.socks fd = some p ∧ s.kernel.files fd = none ∧ fd < s.kernel.nextFd) ∧
  (∀ p fd, s.pc p = .holding fd → s.kernel.bound Sock.lockAddr = some fd)

/-! ## Theorems -/

@[simp] theorem upd_same {α β : Type} [DecidableEq α] (f : α → β) (a : α) (b : β) :
    upd f a b a = b := by
  simp [upd]

theorem upd_other {α β : Type} [DecidableEq α] (f : α → β) (a x : α) (b : β) (h : x ≠ a) :
    upd f a b x = f x := by
  simp [upd, h]

theorem lockDiag_running (e : Errno) :
    Flock.lockDiag e = Diag.text Flock.MSG_RUNNING ↔ e = EWOULDBLOCK := by
  unfold Flock.lockDiag
  split_ifs with h <;> simp [h]

theorem bindDiag_running (e : Errno) :
    Sock.bindDiag e = Diag.text Sock.MSG_RUNNING ↔ e = EADDRINUSE := by
  unfold Sock.bindDiag
  split_ifs with h <;> simp [h]

/-- C6 (acquire failure classification, both guards).  For every kernel state,
process and environment: `init_application_lock` ends with the already-running
outcome exactly when the resource was opened/created and the claim attempt
failed with `EWOULDBLOCK` (flock) or `EADDRINUSE` (bind); it ends with the
I/O-error outcome exactly in the other failure cases (`open`/`socket` failed,
or the claim attempt failed with another errno); it succeeds exactly when both
calls succeed; and the call log contains the claim attempt at most once. -/
theorem acquire_failure_classification (k : Kernel) (pid : Pid) :
    (∀ env : Flock.Env,
      let r := Flock.init_application_lock k pid env
      let o := sys_open k pid Flock.LOCK_FILE env.f_open
      (r.isAlreadyRunning Flock.MSG_RUNNING = true ↔
        ∃ fd, o.1 = .ok fd ∧ (sys_flock_ex_nb o.2 fd env.f_flock).1 = .error EWOULDBLOCK) ∧
      (r.isIoError = true ↔
        (∃ e, o.1 = .error e) ∨
        ∃ fd e, o.1 = .ok fd ∧ (sys_flock_ex_nb o.2 fd env.f_flock).1 = .error e ∧
          e ≠ EWOULDBLOCK) ∧
      (r.isSuccess = true ↔
        ∃ fd, o.1 = .ok fd ∧ (sys_flock_ex_nb o.2 fd env.f_flock).1 = .ok ()) ∧
      r.calls.count Call.c_flock_ex_nb ≤ 1) ∧
    (∀ env : Sock.Env,
      let r := Sock.init_application_lock k pid env
      let o := Sock.sys_socket k pid env.f_socket
      let b := fun fd => Sock.sys_bind o.2 fd (Sock.mkAddr Sock.LOCK_NAME).1
        (Sock.mkAddr Sock.LOCK_NAME).2 env.f_bind
      (r.isAlreadyRunning Sock.MSG_RUNNING = true ↔
        ∃ fd, o.1 = .ok fd ∧ (b fd).1 = .error EADDRINUSE) ∧
      (r.isIoError = true ↔
        (∃ e, o.1 = .error e) ∨
        ∃ fd e, o.1 = .ok fd ∧ (b fd).1 = .error e ∧ e ≠ EADDRINUSE) ∧
      (r.isSuccess = true ↔ ∃ fd, o.1 = .ok fd ∧ (b fd).1 = .ok ()) ∧
      r.calls.count Call.c_bind ≤ 1) := by
  constructor
  · intro env
    simp only [Flock.init_application_lock]
    rcases ho : sys_open k pid Flock.LOCK_FILE env.f_open with ⟨_ | fd, k1⟩
    · simp [Result.isAlreadyRunning, Result.isIoError, Result.isSuccess]
    · rcases hf : sys_flock_ex_nb k1 fd env.f_flock with ⟨e | u, k2⟩
      · by_cases he : e = EWOULDBLOCK
        · subst he
          simp [Result.isAlreadyRunning, Result.isIoError, Result.isSuccess, hf,
            Flock.lockDiag]
        · have hd : Flock.lockDiag e = Diag.perror Flock.MSG_LOCK e := by
            simp [Flock.lockDiag, he]
          simp [Result.isAlreadyRunning, Result.isIoError, Result.isSuccess, hf, hd, he]
      · simp [Result.isAlreadyRunning, Result.isIoError, Result.isSuccess, hf]
  · intro env
    simp only [Sock.init_application_lock]
    rcases ho : Sock.sys_socket k pid env.f_socket with ⟨_ | fd, k1⟩
    · simp [Result.isAlreadyRunning, Result.isIoError, Result.isSuccess]
    · rcases hf : Sock.sys_bind k1 fd (Sock.mkAddr Sock.LOCK_NAME).1
        (Sock.mkAddr Sock.LOCK_NAME).2 env.f_bind with ⟨e | u, k2⟩
      · by_cases he : e = EADDRINUSE
        · subst he
          simp [Result.isAlreadyRunning, Result.isIoError, Result.isSuccess, hf,
            Sock.bindDiag]
        · have hd : Sock.bindDiag e = Diag.perror Sock.MSG_BIND e := by
            simp [Sock.bindDiag, he]
          simp [Result.isAlreadyRunning, Result.isIoError, Result.isSuccess, hf, hd, he]
      · simp [Result.isAlreadyRunning, Result.isIoError, Result.isSuccess, hf]

/-- C7, counterexample.  With the lock already held by process 1, the call of
`init_application_lock` by process 2 does not return to its caller: in both
guards the process is terminated from inside the function, by
`exit(EXIT_FAILURE)` as its last call. -/
theorem init_terminates_process_when_held :
    (Flock.init_application_lock Flock.heldKernel 2 Flock.Env.ok).outcome
        = Outcome.exited EXIT_FAILURE ∧
      (Flock.init_application_lock Flock.heldKernel 2 Flock.Env.ok).calls.getLast?
        = some Call.c_exit ∧
      (Sock.init_application_lock Sock.heldKernel 2 Sock.Env.ok).outcome
        = Outcome.exited EXIT_FAILURE ∧
      (Sock.init_application_lock Sock.heldKernel 2 Sock.Env.ok).calls.getLast?
        = some Call.c_exit := by
  decide

/-- C7, amended.  In both guards, for every kernel state, process and
environment, `init_application_lock` returns control to its caller exactly
when `open`/`socket` and the claim attempt both succeed, and it then returns
the descriptor without printing a diagnostic and without calling `exit`; in
every other case it prints one diagnostic and terminates the process itself
with `exit(EXIT_FAILURE)` as its last call. -/
theorem init_returns_only_on_success (k : Kernel) (pid : Pid) :
    (∀ env : Flock.Env,
      let r := Flock.init_application_lock k pid env
      let o := sys_open k pid Flock.LOCK_FILE env.f_open
      ((∃ fd, o.1 = .ok fd ∧ (sys_flock_ex_nb o.2 fd env.f_flock).1 = .ok () ∧
          r.outcome = .returned fd ∧ r.stderr = [] ∧ Call.c_exit ∉ r.calls) ∨
        ((¬ ∃ fd, o.1 = .ok fd ∧ (sys_flock_ex_nb o.2 fd env.f_flock).1 = .ok ()) ∧
          r.outcome = .exited EXIT_FAILURE ∧ r.stderr.length = 1 ∧
          r.calls.getLast? = some Call.c_exit))) ∧
    (∀ env : Sock.Env,
      let r := Sock.init_application_lock k pid env
      let o := Sock.sys_socket k pid env.f_socket
      let b := fun fd => Sock.sys_bind o.2 fd (Sock.mkAddr Sock.LOCK_NAME).1
        (Sock.mkAddr Sock.LOCK_NAME).2 env.f_bind
      ((∃ fd, o.1 = .ok fd ∧ (b fd).1 = .ok () ∧
          r.outcome = .returned fd ∧ r.stderr = [] ∧ Call.c_exit ∉ r.calls) ∨
        ((¬ ∃ fd, o.1 = .ok fd ∧ (b fd).1 = .ok ()) ∧
          r.outcome = .exited EXIT_FAILURE ∧ r.stderr.length = 1 ∧
          r.calls.getLast? = some Call.c_exit))) := by
  constructor
  · intro env
    simp only [Flock.init_application_lock]
    rcases ho : sys_open k pid Flock.LOCK_FILE env.f_open with ⟨_ | fd, k1⟩
    · simp
    · rcases hf : sys_flock_ex_nb k1 fd env.f_flock with ⟨e | u, k2⟩
      · simp [hf]
      · simp [hf]
  · intro env
    simp only [Sock.init_application_lock]
    rcases ho : Sock.sys_socket k pid env.f_socket with ⟨_ | fd, k1⟩
    · simp
    · rcases hf : Sock.sys_bind k1 fd (Sock.mkAddr Sock.LOCK_NAME).1
        (Sock.mkAddr Sock.LOCK_NAME).2 env.f_bind with ⟨e | u, k2⟩
      · simp [hf]
      · simp [hf]

/-- The address built for `LOCK_NAME` is in the abstract namespace, and its
length argument is past `sizeof(sa_family_t)`. -/
theorem lock_addr_abstract :
    (Sock.mkAddr Sock.LOCK_NAME).1.sun_path.head? = some NUL ∧
      ¬ (Sock.mkAddr Sock.LOCK_NAME).2 ≤ Sock.SIZEOF_SA_FAMILY_T := by
  decide

theorem sys_bind_lock_fs (k : Kernel) (fd : Fd) (fault : Option Errno) :
    (Sock.sys_bind k fd (Sock.mkAddr Sock.LOCK_NAME).1 (Sock.mkAddr Sock.LOCK_NAME).2
        fault).2.paths = k.paths ∧
      (Sock.sys_bind k fd (Sock.mkAddr Sock.LOCK_NAME).1 (Sock.mkAddr Sock.LOCK_NAME).2
        fault).2.content = k.content := by
  unfold Sock.sys_bind
  cases fault with
  | some e => simp
  | none =>
    cases hs : k.socks fd with
    | none => simp
    | some q =>
      simp only [if_neg lock_addr_abstract.2, if_pos lock_addr_abstract.1]
      cases hb : k.bound (Sock.abstractName (Sock.mkAddr Sock.LOCK_NAME).1
        (Sock.mkAddr Sock.LOCK_NAME).2) <;> simp

/-- C9 (the socket guard creates no artifact).  For every kernel state, the
socket guard's `init_application_lock`, whether it succeeds or fails, and its
`cleanup_application_lock` leave the directory (path to inode) and the file
contents unchanged; and `unlink` of any path, successful or not, leaves the
abstract namespace unchanged, so it cannot unbind the lock name. -/
theorem socket_guard_no_artifact (k : Kernel) (pid : Pid) (env : Sock.Env) :
    (Sock.init_application_lock k pid env).kernel.paths = k.paths ∧
      (Sock.init_application_lock k pid env).kernel.content = k.content ∧
      (∀ fd, (Sock.cleanup_application_lock k fd).paths = k.paths ∧
        (Sock.cleanup_application_lock k fd).content = k.content) ∧
      (∀ path fault, (sys_unlink k path fault).2.bound = k.bound) := by
  refine ⟨?_, ?_, ?_, ?_⟩
  · simp only [Sock.init_application_lock]
    rcases ho : Sock.sys_socket k pid env.f_socket with ⟨_ | fd, k1⟩
    · have hk : k1 = k := by
        unfold Sock.sys_socket at ho
        cases hf : env.f_socket <;> simp_all
      simp [sys_exit, hk]
    · have hk : k1.paths = k.paths := by
        unfold Sock.sys_socket at ho
        cases hf : env.f_socket with
        | some e => simp [hf] at ho
        | none =>
          simp only [hf, Prod.mk.injEq] at ho
          rw [← ho.2]
      have hb := (sys_bind_lock_fs k1 fd env.f_bind).1
      dsimp only
      rcases hf : Sock.sys_bind k1 fd (Sock.mkAddr Sock.LOCK_NAME).1
        (Sock.mkAddr Sock.LOCK_NAME).2 env.f_bind with ⟨e | u, k2⟩
      · rw [hf] at hb
        simp only [sys_exit, sys_close]
        exact hb.trans hk
      · rw [hf] at hb
        exact hb.trans hk
  · simp only [Sock.init_application_lock]
    rcases ho : Sock.sys_socket k pid env.f_socket with ⟨_ | fd, k1⟩
    · have hk : k1 = k := by
        unfold Sock.sys_socket at ho
        cases hf : env.f_socket <;> simp_all
      simp [sys_exit, hk]
    · have hk : k1.content = k.content := by
        unfold Sock.sys_socket at ho
        cases hf : env.f_socket with
        | some e => simp [hf] at ho
        | none =>
          simp only [hf, Prod.mk.injEq] at ho
          rw [← ho.2]
      have hb := (sys_bind_lock_fs k1 fd env.f_bind).2
      dsimp only
      rcases hf : Sock.sys_bind k1 fd (Sock.mkAddr Sock.LOCK_NAME).1
        (Sock.mkAddr Sock.LOCK_NAME).2 env.f_bind with ⟨e | u, k2⟩
      · rw [hf] at hb
        simp only [sys_exit, sys_close]
        exact hb.trans hk
      · rw [hf] at hb
        exact hb.trans hk
  · intro fd
    simp [Sock.cleanup_application_lock, sys_close]
  · intro path fault
    unfold sys_unlink
    cases fault with
    | some e => rfl
    | none => cases hp : k.paths path <;> rfl

/-- C8 (known vulnerability of the file guard).  From the empty kernel:
process 1 succeeds in `init_application_lock` (it holds descriptor 3 with the
lock on inode 0, to which the lock path points); an external actor unlinks the
lock path; process 2 then succeeds in `init_application_lock` as well: its
`open` creates the new inode 1 at the path and its `flock` on it is granted.
Processes 1 and 2 are then holders at the same time, each with its own lock. -/
theorem deletion_vulnerability :
    (Flock.run (Flock.State.initial Kernel.empty) (Flock.acquireSteps 1)).pc 1
        = Flock.Pc.holding 3 ∧
      (Flock.run (Flock.State.initial Kernel.empty)
        (Flock.acquireSteps 1)).kernel.paths Flock.LOCK_FILE = some 0 ∧
      (Flock.run (Flock.State.initial Kernel.empty) Flock.deletionTrace).pc 1
        = Flock.Pc.holding 3 ∧
      (Flock.run (Flock.State.initial Kernel.empty) Flock.deletionTrace).pc 2
        = Flock.Pc.holding 4 ∧
      (Flock.run (Flock.State.initial Kernel.empty) Flock.deletionTrace).kernel.paths
        Flock.LOCK_FILE = some 1 ∧
      (Flock.run (Flock.State.initial Kernel.empty) Flock.deletionTrace).kernel.lock 0
        = some 3 ∧
      (Flock.run (Flock.State.initial Kernel.empty) Flock.deletionTrace).kernel.lock 1
        = some 4 ∧
      Flock.isHolder (Flock.run (Flock.State.initial Kernel.empty) Flock.deletionTrace) 1
        = true ∧
      Flock.isHolder (Flock.run (Flock.State.initial Kernel.empty) Flock.deletionTrace) 2
        = true := by
  decide

/-- C1, the code at the failing schedule.  In `Flock.raceTrace` every step is a
system call of `init_application_lock` or `cleanup_application_lock` (no
external actor deletes anything), and at its end processes 2 and 3 have both
returned successfully from `init_application_lock` and neither has started
`cleanup_application_lock`: process 2 holds the lock on the unlinked inode 0,
process 3 the lock on the new inode 1 at the lock path. -/
theorem flock_race_two_holders :
    Flock.raceTrace.all Flock.Event.isRun = true ∧
      (Flock.run (Flock.State.initial Kernel.empty) Flock.raceTrace).pc 2
        = Flock.Pc.holding 4 ∧
      (Flock.run (Flock.State.initial Kernel.empty) Flock.raceTrace).pc 3
        = Flock.Pc.holding 5 ∧
      Flock.inMainLoop (Flock.run (Flock.State.initial Kernel.empty) Flock.raceTrace) 2
        = true ∧
      Flock.inMainLoop (Flock.run (Flock.State.initial Kernel.empty) Flock.raceTrace) 3
        = true ∧
      Flock.isHolder (Flock.run (Flock.State.initial Kernel.empty) Flock.raceTrace) 2
        = true ∧
      Flock.isHolder (Flock.run (Flock.State.initial Kernel.empty) Flock.raceTrace) 3
        = true ∧
      (Flock.run (Flock.State.initial Kernel.empty) Flock.raceTrace).kernel.lock 0
        = some 4 ∧
      (Flock.run (Flock.State.initial Kernel.empty) Flock.raceTrace).kernel.lock 1
        = some 5 ∧
      (Flock.run (Flock.State.initial Kernel.empty) Flock.raceTrace).kernel.paths
        Flock.LOCK_FILE = some 1 := by
  decide

theorem ite_ne_of_ne {c : Prop} [Decidable c] {a b x : Char} (ha : a ≠ x) (hb : b ≠ x) :
    (if c then a else b) ≠ x := by
  split <;> assumption

theorem digitChar_ne_NUL (d : Nat) : Nat.digitChar d ≠ NUL := by
  unfold Nat.digitChar
  repeat' apply ite_ne_of_ne
  all_goals decide

theorem toDigitsCore_no_NUL (fuel : Nat) : ∀ (n : Nat) (acc : List Char),
    (∀ c ∈ acc, c ≠ NUL) → ∀ c ∈ Nat.toDigitsCore 10 fuel n acc, c ≠ NUL := by
  induction fuel with
  | zero => intro n acc h; simpa [Nat.toDigitsCore] using h
  | succ f ih =>
    intro n acc h
    simp only [Nat.toDigitsCore]
    split_ifs with h0
    · intro c hc
      rcases List.mem_cons.1 hc with rfl | hc
      · exact digitChar_ne_NUL _
      · exact h c hc
    · apply ih
      intro c hc
      rcases List.mem_cons.1 hc with rfl | hc
      · exact digitChar_ne_NUL _
      · exact h c hc

theorem fmt_d_no_NUL (v : Int) : ∀ c ∈ fmt_d v, c ≠ NUL := by
  have hd : ∀ n, ∀ c ∈ Nat.toDigits 10 n, c ≠ NUL := fun n =>
    toDigitsCore_no_NUL _ _ _ (by simp)
  unfold fmt_d
  split_ifs
  · intro c hc
    rcases List.mem_cons.1 hc with rfl | hc
    · decide
    · exact hd _ c hc
  · exact hd _

theorem fmt_d_length (v : Int) (hlo : -2147483648 ≤ v) (hhi : v ≤ 2147483647) :
    (fmt_d v).length ≤ 11 := by
  have hn : v.natAbs < 10 ^ 10 := by omega
  have hd : (Nat.toDigits 10 v.natAbs).length ≤ 10 :=
    Nat.toDigitsCore_length 10 (by norm_num) _ _ 10 hn (by norm_num)
  unfold fmt_d
  split_ifs <;> simp <;> omega

theorem strlen_append_NUL (l : List Char) (h : ∀ c ∈ l, c ≠ NUL) (r : List Char) :
    strlen (l ++ NUL :: r) = l.length := by
  unfold strlen
  induction l with
  | nil => simp
  | cons a t ih =>
    have ha : a ≠ NUL := h a (by simp)
    simp only [List.cons_append, ne_eq, decide_not]
    rw [List.takeWhile_cons_of_pos (by simpa using ha)]
    simp only [List.length_cons, add_left_inj]
    simpa using ih (fun c hc => h c (by simp [hc]))

theorem pid_str_eq (pid : Pid) (hlo : -2147483648 ≤ pid) (hhi : pid ≤ 2147483647) :
    Flock.pid_str pid = fmt_d pid ++ [LF, NUL] := by
  have hl := fmt_d_length pid hlo hhi
  unfold Flock.pid_str snprintf
  rw [List.take_of_length_le (by simp; omega)]
  simp

theorem pidText_eq (pid : Pid) (hlo : -2147483648 ≤ pid) (hhi : pid ≤ 2147483647) :
    Flock.pidText pid = fmt_d pid ++ [LF] := by
  have hs : Flock.pid_str pid = (fmt_d pid ++ [LF]) ++ NUL :: [] := by
    rw [pid_str_eq pid hlo hhi]; simp
  have hn : ∀ c ∈ fmt_d pid ++ [LF], c ≠ NUL := by
    intro c hc
    rcases List.mem_append.1 hc with hc | hc
    · exact fmt_d_no_NUL pid c hc
    · have : c = LF := by simpa using hc
      subst this
      decide
  unfold Flock.pidText
  rw [hs, strlen_append_NUL _ hn]
  exact List.take_left' rfl

theorem writeAt_empty (data : List Char) : writeAt [] 0 data = data := by
  simp [writeAt, resize]

theorem resize_zero (c : List Char) : resize c 0 = [] := by
  simp [resize]

/-- The `%d` text of the model is the decimal text of the integer: an
optional minus sign followed by the decimal digits, as `toString` prints it. -/
theorem fmt_d_eq_toString (v : Int) : fmt_d v = (toString v).toList := by
  unfold fmt_d
  cases v with
  | ofNat n =>
    have h : ¬ (Int.ofNat n < 0) := by simp
    rw [if_neg h]
    rfl
  | negSucc n =>
    have h : Int.negSucc n < 0 := Int.negSucc_lt_zero n
    rw [if_pos h]
    rfl

/-- The content of the lock file after a returning `init_application_lock`, in
terms of the text that `%d` produces. -/
theorem flock_init_content (k : Kernel) (pid : Pid) (env : Flock.Env) (fd : Fd)
    (hlo : -2147483648 ≤ pid) (hhi : pid ≤ 2147483647)
    (hret : (Flock.init_application_lock k pid env).outcome = .returned fd)
    (htrunc : env.f_ftruncate = none) (hwrite : env.f_write = none) :
    (∃ i, (Flock.init_application_lock k pid env).kernel.paths Flock.LOCK_FILE = some i ∧
        (Flock.init_application_lock k pid env).kernel.content i = fmt_d pid ++ [LF]) ∧
      Flock.pid_str pid = fmt_d pid ++ [LF, NUL] ∧
      (Flock.pid_str pid).length ≤ 16 := by
  refine ⟨?_, pid_str_eq pid hlo hhi, ?_⟩
  · have hp := pidText_eq pid hlo hhi
    unfold Flock.init_application_lock at hret ⊢
    unfold sys_open at hret ⊢
    cases ho : env.f_open with
    | some e => simp [ho] at hret
    | none =>
      simp only [ho] at hret ⊢
      cases hpath : k.paths Flock.LOCK_FILE with
      | some i =>
        simp only [hpath] at hret ⊢
        unfold sys_flock_ex_nb at hret ⊢
        cases hf : env.f_flock with
        | some e => simp [hf] at hret
        | none =>
          simp only [hf, upd_same] at hret ⊢
          cases hl : k.lock i with
          | none =>
            refine ⟨i, ?_, ?_⟩
            · simp [hl, sys_ftruncate, sys_write, htrunc, hwrite, hpath]
            · simp [hl, sys_ftruncate, sys_write, htrunc, hwrite, hp, resize_zero, writeAt_empty]
          | some h =>
            simp only [hl] at hret ⊢
            by_cases hh : h = k.nextFd
            · refine ⟨i, ?_, ?_⟩
              · simp [hh, sys_ftruncate, sys_write, htrunc, hwrite, hpath]
              · simp [hh, sys_ftruncate, sys_write, htrunc, hwrite, hp, resize_zero,
                  writeAt_empty]
            · simp [hh] at hret
      | none =>
        simp only [hpath] at hret ⊢
        unfold sys_flock_ex_nb at hret ⊢
        cases hf : env.f_flock with
        | some e => simp [hf] at hret
        | none =>
          refine ⟨k.nextIno, ?_, ?_⟩
          · simp [hf, sys_ftruncate, sys_write, htrunc, hwrite]
          · simp [hf, sys_ftruncate, sys_write, htrunc, hwrite, hp, resize_zero, writeAt_empty]
  · rw [pid_str_eq pid hlo hhi]
    have hl := fmt_d_length pid hlo hhi
    simp
    omega

/-- C3 (diagnostic contents of the lock file).  For every kernel state (lock
file absent, empty, or with stale text of any length), every process id in the
range of a C `int` and every environment in which `ftruncate` and `write` are
not made to fail: if `init_application_lock` returns, the file at the lock path
contains exactly the decimal representation of the process id (the text
`toString pid`) followed by one line feed and nothing else, and the 16-byte
buffer `pid_str` holds that whole text and its terminator, untruncated. -/
theorem diagnostic_contents (k : Kernel) (pid : Pid) (env : Flock.Env) (fd : Fd)
    (hlo : -2147483648 ≤ pid) (hhi : pid ≤ 2147483647)
    (hret : (Flock.init_application_lock k pid env).outcome = .returned fd)
    (htrunc : env.f_ftruncate = none) (hwrite : env.f_write = none) :
    (∃ i, (Flock.init_application_lock k pid env).kernel.paths Flock.LOCK_FILE = some i ∧
        (Flock.init_application_lock k pid env).kernel.content i
          = (toString pid).toList ++ [LF]) ∧
      Flock.pid_str pid = (toString pid).toList ++ [LF, NUL] ∧
      (Flock.pid_str pid).length ≤ 16 := by
  rw [← fmt_d_eq_toString]
  exact flock_init_content k pid env fd hlo hhi hret htrunc hwrite

/-- C3, witness: process 1234 acquires while the lock file still holds the
longer stale text of the dead process 1234567; afterwards the file reads
exactly `1234` and a line feed. -/
theorem diagnostic_contents_witness :
    (sys_exit (Flock.init_application_lock Kernel.empty 1234567 Flock.Env.ok).kernel
        1234567).content 0 = "1234567\n".toList ∧
      (∃ i, (Flock.init_application_lock
          (sys_exit (Flock.init_application_lock Kernel.empty 1234567 Flock.Env.ok).kernel
            1234567) 1234 Flock.Env.ok).kernel.paths Flock.LOCK_FILE = some i ∧
        (Flock.init_application_lock
          (sys_exit (Flock.init_application_lock Kernel.empty 1234567 Flock.Env.ok).kernel
            1234567) 1234 Flock.Env.ok).kernel.content i = "1234\n".toList) ∧
      Flock.pid_str 1234 = "1234\n".toList ++ [NUL] ∧
      (Flock.pid_str 1234).length ≤ 16 :=
  ⟨by decide,
    diagnostic_contents
      (sys_exit (Flock.init_application_lock Kernel.empty 1234567 Flock.Env.ok).kernel 1234567)
      1234 Flock.Env.ok 4 (by decide) (by decide) (by decide) rfl rfl⟩

/-! ### Facts about the system calls -/

theorem sys_open_ok (k : Kernel) (pid : Pid) (path : Path) :
    ∃ i, sys_open k pid path none =
        (.ok k.nextFd, (sys_open k pid path none).2) ∧
      (sys_open k pid path none).2.paths path = some i ∧
      (sys_open k pid path none).2.files k.nextFd = some ⟨pid, i, 0⟩ ∧
      (∀ j, k.paths path = some j → j = i ∧ (sys_open k pid path none).2.lock = k.lock ∧
        (sys_open k pid path none).2.content = k.content) ∧
      (k.paths path = none → (sys_open k pid path none).2.lock i = none) := by
  unfold sys_open
  cases hp : k.paths path with
  | some j => exact ⟨j, by simp [hp]⟩
  | none => exact ⟨k.nextIno, by simp⟩

theorem sys_open_result (k k1 : Kernel) (pid : Pid) (path : Path) (fault : Option Errno)
    (fd : Fd) (h : sys_open k pid path fault = (.ok fd, k1)) :
    fault = none ∧ fd = k.nextFd ∧ k1 = (sys_open k pid path none).2 := by
  cases fault with
  | some e => simp [sys_open] at h
  | none =>
    obtain ⟨i, hi, -⟩ := sys_open_ok k pid path
    rw [hi] at h
    simp only [Prod.mk.injEq, Except.ok.injEq] at h
    exact ⟨rfl, h.1.symm, h.2.symm⟩

theorem sys_flock_granted (k : Kernel) (fd : Fd) (f : OpenFile) (hf : k.files fd = some f)
    (hl : k.lock f.ino = none) :
    (sys_flock_ex_nb k fd none).1 = .ok () := by
  simp [sys_flock_ex_nb, hf, hl]

theorem sys_flock_result (k k2 : Kernel) (fd : Fd) (fault : Option Errno) (u : Unit)
    (f : OpenFile) (hf : k.files fd = some f)
    (h : sys_flock_ex_nb k fd fault = (.ok u, k2)) :
    k2.lock f.ino = some fd ∧ k2.paths = k.paths ∧ k2.files = k.files ∧
      k2.content = k.content ∧ k2.nextFd = k.nextFd := by
  unfold sys_flock_ex_nb at h
  cases fault with
  | some e => simp at h
  | none =>
    simp only [hf] at h
    cases hl : k.lock f.ino with
    | none =>
      simp only [hl, Prod.mk.injEq, true_and] at h
      subst h
      simp
    | some o =>
      simp only [hl] at h
      by_cases ho : o = fd
      · simp only [ho, if_true, Prod.mk.injEq, true_and] at h
        subst h
        simp [hl, ho]
      · simp [ho] at h

theorem sys_ftruncate_frame (k : Kernel) (fd : Fd) (len : Nat) (fault : Option Errno) :
    (sys_ftruncate k fd len fault).2.paths = k.paths ∧
      (sys_ftruncate k fd len fault).2.lock = k.lock ∧
      (sys_ftruncate k fd len fault).2.files = k.files ∧
      (sys_ftruncate k fd len fault).2.nextFd = k.nextFd := by
  unfold sys_ftruncate
  cases fault with
  | some e => simp
  | none => cases hf : k.files fd <;> simp

theorem sys_write_frame (k : Kernel) (fd : Fd) (data : List Char) (fault : Option Errno) :
    (sys_write k fd data fault).2.paths = k.paths ∧
      (sys_write k fd data fault).2.lock = k.lock ∧
      (sys_write k fd data fault).2.nextFd = k.nextFd ∧
      (∀ f, k.files fd = some f → ∃ g, (sys_write k fd data fault).2.files fd = some g ∧
        g.owner = f.owner ∧ g.ino = f.ino) := by
  unfold sys_write
  cases fault with
  | some e => exact ⟨rfl, rfl, rfl, fun f hf => ⟨f, hf, rfl, rfl⟩⟩
  | none => cases hf : k.files fd <;> simp

/-- What a returning call of the file guard's `init_application_lock` went
through. -/
theorem flock_init_returned (k : Kernel) (pid : Pid) (env : Flock.Env) (fd : Fd)
    (h : (Flock.init_application_lock k pid env).outcome = .returned fd) :
    ∃ k1 k2, sys_open k pid Flock.LOCK_FILE env.f_open = (.ok fd, k1) ∧
      sys_flock_ex_nb k1 fd env.f_flock = (.ok (), k2) ∧
      (Flock.init_application_lock k pid env).kernel =
        (sys_write (sys_ftruncate k2 fd 0 env.f_ftruncate).2 fd (Flock.pidText pid)
          env.f_write).2 := by
  unfold Flock.init_application_lock at h ⊢
  rcases ho : sys_open k pid Flock.LOCK_FILE env.f_open with ⟨e | fd1, k1⟩
  · simp [ho] at h
  · simp only [ho] at h ⊢
    rcases hf : sys_flock_ex_nb k1 fd1 env.f_flock with ⟨e | u, k2⟩
    · simp [hf] at h
    · simp only [hf, Outcome.returned.injEq] at h ⊢
      subst h
      exact ⟨k1, k2, rfl, hf, rfl⟩

/-- The state in which a returning call of the file guard's
`init_application_lock` leaves the kernel: the lock path names an inode whose
lock is owned by the returned descriptor, which belongs to the caller. -/
theorem flock_init_post (k : Kernel) (pid : Pid) (env : Flock.Env) (fd : Fd)
    (h : (Flock.init_application_lock k pid env).outcome = .returned fd) :
    ∃ i g, (Flock.init_application_lock k pid env).kernel.paths Flock.LOCK_FILE = some i ∧
      (Flock.init_application_lock k pid env).kernel.lock i = some fd ∧
      (Flock.init_application_lock k pid env).kernel.files fd = some g ∧
      g.owner = pid ∧ g.ino = i := by
  obtain ⟨k1, k2, ho, hf, hk⟩ := flock_init_returned k pid env fd h
  obtain ⟨hfault, hfd, hk1⟩ := sys_open_result k k1 pid _ _ fd ho
  obtain ⟨i, -, hpath, hfile, -, -⟩ := sys_open_ok k pid Flock.LOCK_FILE
  rw [← hk1] at hpath hfile
  rw [← hfd] at hfile
  obtain ⟨hlock, hp2, hf2, -, -⟩ := sys_flock_result k1 k2 fd _ () _ hfile hf
  obtain ⟨tp, tl, tf, -⟩ := sys_ftruncate_frame k2 fd 0 env.f_ftruncate
  obtain ⟨wp, wl, -, wf⟩ := sys_write_frame (sys_ftruncate k2 fd 0 env.f_ftruncate).2 fd
    (Flock.pidText pid) env.f_write
  obtain ⟨g, hg, hgo, hgi⟩ := wf ⟨pid, i, 0⟩ (by rw [tf, hf2]; exact hfile)
  refine ⟨i, g, ?_, ?_, ?_, hgo, hgi⟩
  · rw [hk, wp, tp, hp2]; exact hpath
  · rw [hk, wl, tl]; exact hlock
  · rw [hk]; exact hg

/-- With no environment fault, the file guard's `init_application_lock`
returns whenever the file at the lock path, if there is one, is not locked. -/
theorem flock_init_succeeds (k : Kernel) (pid : Pid)
    (hfree : ∀ i, k.paths Flock.LOCK_FILE = some i → k.lock i = none) :
    (sys_open k pid Flock.LOCK_FILE none).1 = .ok k.nextFd ∧
      (sys_flock_ex_nb (sys_open k pid Flock.LOCK_FILE none).2 k.nextFd none).1 = .ok () ∧
      (Flock.init_application_lock k pid Flock.Env.ok).outcome = .returned k.nextFd := by
  obtain ⟨i, ho, -, hfile, hex, hnew⟩ := sys_open_ok k pid Flock.LOCK_FILE
  have hl : (sys_open k pid Flock.LOCK_FILE none).2.lock i = none := by
    cases hp : k.paths Flock.LOCK_FILE with
    | none => exact hnew hp
    | some j =>
      obtain ⟨hji, hlk, -⟩ := hex j hp
      rw [hlk, ← hji]
      exact hfree j hp
  have hg := sys_flock_granted _ k.nextFd _ hfile hl
  refine ⟨by rw [ho], hg, ?_⟩
  unfold Flock.init_application_lock
  simp only [Flock.Env.ok]
  rw [ho]
  rcases hf : sys_flock_ex_nb (sys_open k pid Flock.LOCK_FILE none).2 k.nextFd none
    with ⟨e | u, k2⟩
  · rw [hf] at hg; simp at hg
  · simp [hf]

/-- C5 (crash safety of the file guard).  Let process `a` return from
`init_application_lock` and then die without running
`cleanup_application_lock`: the kernel closes its descriptors, which drops its
lock, and leaves the file in place.  Then the lock path still names the same
inode with the old holder's content, that inode is unlocked, and for a new
process `b` the `open` of the existing file succeeds, the non-blocking
exclusive `flock` is granted, and `init_application_lock` returns. -/
theorem crash_safety (k : Kernel) (a b : Pid) (envA : Flock.Env) (fdA : Fd)
    (hA : (Flock.init_application_lock k a envA).outcome = .returned fdA) :
    ∃ i, (Flock.init_application_lock k a envA).kernel.paths Flock.LOCK_FILE = some i ∧
      (Flock.init_application_lock k a envA).kernel.lock i = some fdA ∧
      (sys_exit (Flock.init_application_lock k a envA).kernel a).paths Flock.LOCK_FILE
        = some i ∧
      (sys_exit (Flock.init_application_lock k a envA).kernel a).content i
        = (Flock.init_application_lock k a envA).kernel.content i ∧
      (sys_exit (Flock.init_application_lock k a envA).kernel a).lock i = none ∧
      (sys_open (sys_exit (Flock.init_application_lock k a envA).kernel a) b
        Flock.LOCK_FILE none).1
        = .ok (sys_exit (Flock.init_application_lock k a envA).kernel a).nextFd ∧
      (sys_flock_ex_nb
        (sys_open (sys_exit (Flock.init_application_lock k a envA).kernel a) b
          Flock.LOCK_FILE none).2
        (sys_exit (Flock.init_application_lock k a envA).kernel a).nextFd none).1 = .ok () ∧
      (Flock.init_application_lock
        (sys_exit (Flock.init_application_lock k a envA).kernel a) b Flock.Env.ok).outcome
        = .returned (sys_exit (Flock.init_application_lock k a envA).kernel a).nextFd := by
  obtain ⟨i, g, hpath, hlock, hfile, hgo, hgi⟩ := flock_init_post k a envA fdA hA
  have hunl : (sys_exit (Flock.init_application_lock k a envA).kernel a).lock i = none := by
    simp [sys_exit, hlock, ownedBy, hfile, hgo]
  have hp2 : (sys_exit (Flock.init_application_lock k a envA).kernel a).paths
      Flock.LOCK_FILE = some i := hpath
  have hfree : ∀ j, (sys_exit (Flock.init_application_lock k a envA).kernel a).paths
      Flock.LOCK_FILE = some j →
      (sys_exit (Flock.init_application_lock k a envA).kernel a).lock j = none := by
    intro j hj
    rw [hp2] at hj
    cases hj
    exact hunl
  obtain ⟨h1, h2, h3⟩ := flock_init_succeeds _ b hfree
  exact ⟨i, hpath, hlock, hp2, rfl, hunl, h1, h2, h3⟩

/-- C5, witness: process 1 acquires from the empty kernel and
dies; process 2 acquires. -/
theorem crash_safety_witness :
    ∃ i, (Flock.init_application_lock Kernel.empty 1 Flock.Env.ok).kernel.paths
        Flock.LOCK_FILE = some i ∧
      (Flock.init_application_lock Kernel.empty 1 Flock.Env.ok).kernel.lock i = some 3 ∧
      (sys_exit (Flock.init_application_lock Kernel.empty 1 Flock.Env.ok).kernel 1).paths
        Flock.LOCK_FILE = some i ∧
      (sys_exit (Flock.init_application_lock Kernel.empty 1 Flock.Env.ok).kernel 1).content i
        = (Flock.init_application_lock Kernel.empty 1 Flock.Env.ok).kernel.content i ∧
      (sys_exit (Flock.init_application_lock Kernel.empty 1 Flock.Env.ok).kernel 1).lock i
        = none ∧
      (sys_open (sys_exit (Flock.init_application_lock Kernel.empty 1 Flock.Env.ok).kernel 1) 2
        Flock.LOCK_FILE none).1
        = .ok (sys_exit (Flock.init_application_lock Kernel.empty 1 Flock.Env.ok).kernel
            1).nextFd ∧
      (sys_flock_ex_nb
        (sys_open (sys_exit (Flock.init_application_lock Kernel.empty 1 Flock.Env.ok).kernel 1)
          2 Flock.LOCK_FILE none).2
        (sys_exit (Flock.init_application_lock Kernel.empty 1 Flock.Env.ok).kernel 1).nextFd
        none).1 = .ok () ∧
      (Flock.init_application_lock
        (sys_exit (Flock.init_application_lock Kernel.empty 1 Flock.Env.ok).kernel 1) 2
        Flock.Env.ok).outcome
        = .returned
          (sys_exit (Flock.init_application_lock Kernel.empty 1 Flock.Env.ok).kernel 1).nextFd :=
  crash_safety Kernel.empty 1 2 Flock.Env.ok 3 (by decide)

/-! ### The socket address -/

theorem strlen_cstr (name : List Char) (hnul : NUL ∉ name) :
    strlen (name ++ [NUL]) = name.length :=
  strlen_append_NUL name (fun _ hc hcn => hnul (hcn ▸ hc)) []

theorem strncpy_cstr (name : List Char) (hnul : NUL ∉ name) (n : Nat) (hlen : name.length ≤ n) :
    Sock.strncpy (name ++ [NUL]) n = name ++ List.replicate (n - name.length) NUL := by
  unfold Sock.strncpy
  rw [strlen_cstr name hnul, List.take_left' rfl, List.take_of_length_le hlen]

theorem mkAddr_sun_path (name : List Char) (hlen : name.length ≤ Sock.SIZEOF_SUN_PATH - 2)
    (hnul : NUL ∉ name) :
    (Sock.mkAddr (name ++ [NUL])).1.sun_path
      = NUL :: (name ++ List.replicate (Sock.SIZEOF_SUN_PATH - 1 - name.length) NUL) := by
  have hl : name.length ≤ 106 := hlen
  simp only [Sock.mkAddr, Sock.blit, Sock.SIZEOF_SUN_PATH]
  rw [strncpy_cstr name hnul _ hl]
  have h1 : (name ++ List.replicate (106 - name.length) NUL).length = 106 := by
    simp; omega
  rw [h1]
  have h2 : List.replicate (108 - 1 - name.length) NUL
      = List.replicate (106 - name.length) NUL ++ [NUL] := by
    have : 108 - 1 - name.length = (106 - name.length) + 1 := by omega
    rw [this, List.replicate_succ']
  rw [h2]
  simp [List.take_replicate, List.drop_replicate]

theorem mkAddr_abstractName (name : List Char) (hlen : name.length ≤ Sock.SIZEOF_SUN_PATH - 2)
    (hnul : NUL ∉ name) :
    Sock.abstractName (Sock.mkAddr (name ++ [NUL])).1 (Sock.mkAddr (name ++ [NUL])).2
      = NUL :: name := by
  unfold Sock.abstractName
  rw [mkAddr_sun_path name hlen hnul]
  have hl : (Sock.mkAddr (name ++ [NUL])).2 - Sock.SIZEOF_SA_FAMILY_T = name.length + 1 := by
    simp only [Sock.mkAddr, Sock.SIZEOF_SA_FAMILY_T]
    rw [strlen_cstr name hnul]
    omega
  rw [hl]
  simp

/-- C10 (address construction of the socket guard).  For every lock name of
at most `sizeof(sun_path) - 2` bytes without a zero byte (given to the code as
the character array `name ++ [NUL]`): the address passed to `bind` has family
`AF_UNIX`, `sun_path[0] = 0`, the next `strlen(name)` bytes equal to the name,
and length `sizeof(sa_family_t) + 1 + strlen(name)`; the abstract name that the
kernel binds is exactly one zero byte followed by the bytes of the name, so a
successful `bind` records the descriptor under that name; and two such names
give the same bound name exactly when they are equal. -/
theorem address_construction (name : List Char)
    (hlen : name.length ≤ Sock.SIZEOF_SUN_PATH - 2) (hnul : NUL ∉ name) :
    (Sock.mkAddr (name ++ [NUL])).1.sun_family = Sock.AF_UNIX ∧
      (Sock.mkAddr (name ++ [NUL])).1.sun_path.length = Sock.SIZEOF_SUN_PATH ∧
      (Sock.mkAddr (name ++ [NUL])).1.sun_path.head? = some NUL ∧
      ((Sock.mkAddr (name ++ [NUL])).1.sun_path.drop 1).take (strlen (name ++ [NUL])) = name ∧
      strlen (name ++ [NUL]) = name.length ∧
      (Sock.mkAddr (name ++ [NUL])).2 = Sock.SIZEOF_SA_FAMILY_T + 1 + name.length ∧
      Sock.abstractName (Sock.mkAddr (name ++ [NUL])).1 (Sock.mkAddr (name ++ [NUL])).2
        = NUL :: name ∧
      (∀ (k k2 : Kernel) (fd : Fd) (fault : Option Errno),
        Sock.sys_bind k fd (Sock.mkAddr (name ++ [NUL])).1 (Sock.mkAddr (name ++ [NUL])).2 fault
          = (.ok (), k2) →
        k2.bound (NUL :: name) = some fd ∧ k2.paths = k.paths) ∧
      (∀ other : List Char, other.length ≤ Sock.SIZEOF_SUN_PATH - 2 → NUL ∉ other →
        (Sock.abstractName (Sock.mkAddr (other ++ [NUL])).1 (Sock.mkAddr (other ++ [NUL])).2
          = Sock.abstractName (Sock.mkAddr (name ++ [NUL])).1 (Sock.mkAddr (name ++ [NUL])).2
          ↔ other = name)) := by
  have hp := mkAddr_sun_path name hlen hnul
  have ha := mkAddr_abstractName name hlen hnul
  have hs := strlen_cstr name hnul
  have hl : name.length ≤ 106 := hlen
  have h2 : (Sock.mkAddr (name ++ [NUL])).2 = Sock.SIZEOF_SA_FAMILY_T + 1 + name.length := by
    simp only [Sock.mkAddr, Sock.SIZEOF_SA_FAMILY_T]
    rw [hs]
    omega
  refine ⟨rfl, ?_, ?_, ?_, hs, h2, ha, ?_, ?_⟩
  · rw [hp]
    simp [Sock.SIZEOF_SUN_PATH]
    omega
  · rw [hp]
    rfl
  · rw [hp, hs]
    simp
  · intro k k2 fd fault hb
    unfold Sock.sys_bind at hb
    cases fault with
    | some e => simp at hb
    | none =>
      cases hsock : k.socks fd with
      | none => simp [hsock] at hb
      | some q =>
        have hlen2 : ¬ (Sock.mkAddr (name ++ [NUL])).2 ≤ Sock.SIZEOF_SA_FAMILY_T := by
          rw [h2]; simp only [Sock.SIZEOF_SA_FAMILY_T]; omega
        have hhead : (Sock.mkAddr (name ++ [NUL])).1.sun_path.head? = some NUL := by
          rw [hp]; rfl
        simp only [hsock, if_neg hlen2, if_pos hhead, ha] at hb
        cases hbound : k.bound (NUL :: name) with
        | some o => simp [hbound] at hb
        | none =>
          simp only [hbound, Prod.mk.injEq, true_and] at hb
          subst hb
          simp
  · intro other holen honul
    rw [ha, mkAddr_abstractName other holen honul]
    simp

/-- C10, witness: the program's own lock name. -/
theorem address_construction_witness :
    Sock.abstractName (Sock.mkAddr Sock.LOCK_NAME).1 (Sock.mkAddr Sock.LOCK_NAME).2
      = NUL :: "modbus_master_app_lock".toList :=
  (address_construction "modbus_master_app_lock".toList (by decide) (by decide)).2.2.2.2.2.2.1

/-! ### Release enables re-acquisition -/

theorem flock_session_ok (k : Kernel) (pid : Pid) (hfree : Flock.Free k) :
    ∃ s, Flock.session k pid = some s ∧ Flock.Released s := by
  obtain ⟨-, -, hret⟩ := flock_init_succeeds k pid hfree
  obtain ⟨i, g, hpath, hlock, hfile, -, hgi⟩ :=
    flock_init_post k pid Flock.Env.ok k.nextFd hret
  refine ⟨⟨k.nextFd, (Flock.init_application_lock k pid Flock.Env.ok).kernel,
    Flock.cleanup_application_lock (Flock.init_application_lock k pid Flock.Env.ok).kernel
      k.nextFd none⟩, ?_, ?_, ?_⟩
  · simp [Flock.session, hret]
  · refine ⟨g, hfile, ?_, ?_, ?_⟩
    · rw [hgi]; exact hpath
    · rw [hgi]; exact hlock
    · rw [hgi]
      simp only [Flock.cleanup_application_lock, sys_flock_un, hfile, hgi, hlock, if_true,
        sys_unlink, sys_close]
      cases hp : (Flock.init_application_lock k pid Flock.Env.ok).kernel.paths Flock.LOCK_FILE
        <;> simp
  · simp only [Flock.cleanup_application_lock, sys_flock_un, hfile, hgi, hlock, if_true,
      sys_unlink, sys_close, hpath]
    simp

theorem flock_sessions_ok (pids : List Pid) : ∀ k : Kernel, Flock.Free k →
    (Flock.sessions k pids).length = pids.length ∧
      ∀ s ∈ Flock.sessions k pids, Flock.Released s := by
  induction pids with
  | nil => intro k _; simp [Flock.sessions]
  | cons p ps ih =>
    intro k hfree
    obtain ⟨s, hs, hrel⟩ := flock_session_ok k p hfree
    have hnext : Flock.Free s.released := by
      intro i hi
      rw [hrel.2] at hi
      cases hi
    obtain ⟨hlen, hall⟩ := ih s.released hnext
    simp only [Flock.sessions, hs, List.length_cons, hlen, List.mem_cons, true_and]
    rintro t (rfl | ht)
    · exact hrel
    · exact hall t ht

theorem sock_session_ok (k : Kernel) (pid : Pid) (hfree : Sock.Free k) :
    ∃ s, Sock.session k pid = some s ∧ Sock.Released s := by
  have hb : k.bound (Sock.abstractName (Sock.mkAddr Sock.LOCK_NAME).1
      (Sock.mkAddr Sock.LOCK_NAME).2) = none := hfree
  have hinit : (Sock.init_application_lock k pid Sock.Env.ok) =
      { outcome := .returned k.nextFd, stderr := [], calls := [.c_socket, .c_bind],
        kernel := { k with socks := upd k.socks k.nextFd (some pid)
                           nextFd := k.nextFd + 1
                           bound := upd k.bound Sock.lockAddr (some k.nextFd) } } := by
    simp only [Sock.init_application_lock, Sock.Env.ok, Sock.sys_socket, Sock.sys_bind,
      upd_same, if_neg lock_addr_abstract.2, if_pos lock_addr_abstract.1, hb]
    rfl
  refine ⟨⟨k.nextFd, (Sock.init_application_lock k pid Sock.Env.ok).kernel,
    Sock.cleanup_application_lock (Sock.init_application_lock k pid Sock.Env.ok).kernel
      k.nextFd⟩, ?_, ?_, ?_⟩
  · simp [Sock.session, hinit]
  · simp [hinit]
  · simp [hinit, Sock.cleanup_application_lock, sys_close]

theorem sock_sessions_ok (pids : List Pid) : ∀ k : Kernel, Sock.Free k →
    (Sock.sessions k pids).length = pids.length ∧
      ∀ s ∈ Sock.sessions k pids, Sock.Released s := by
  induction pids with
  | nil => intro k _; simp [Sock.sessions]
  | cons p ps ih =>
    intro k hfree
    obtain ⟨s, hs, hrel⟩ := sock_session_ok k p hfree
    obtain ⟨hlen, hall⟩ := ih s.released hrel.2
    simp only [Sock.sessions, hs, List.length_cons, hlen, List.mem_cons, true_and]
    rintro t (rfl | ht)
    · exact hrel
    · exact hall t ht

/-- C4 (release enables re-acquisition, both guards).  Start from a kernel
state in which no process holds the lock (file guard: the file at the lock
path, if any, is unlocked; socket guard: the lock name is unbound) and let the
listed processes, any number `N` of them, run `init_application_lock` followed
by `cleanup_application_lock` on the returned descriptor, one after the other
and without environment faults.  Then all `N` acquires succeed, and after every
cleanup the lock has no holder again: the file is unlocked and the lock path
removed, respectively the lock name is unbound. -/
theorem release_enables_reacquisition (k : Kernel) (pids : List Pid) :
    (Flock.Free k →
      (Flock.sessions k pids).length = pids.length ∧
        ∀ s ∈ Flock.sessions k pids, Flock.Released s) ∧
    (Sock.Free k →
      (Sock.sessions k pids).length = pids.length ∧
        ∀ s ∈ Sock.sessions k pids, Sock.Released s) :=
  ⟨flock_sessions_ok pids k, sock_sessions_ok pids k⟩

/-- C4, witness: three sessions from the empty
kernel, for each guard. -/
theorem release_enables_reacquisition_witness :
    ((Flock.sessions Kernel.empty [1, 2, 3]).length = 3 ∧
        ∀ s ∈ Flock.sessions Kernel.empty [1, 2, 3], Flock.Released s) ∧
      ((Sock.sessions Kernel.empty [1, 2, 3]).length = 3 ∧
        ∀ s ∈ Sock.sessions Kernel.empty [1, 2, 3], Sock.Released s) :=
  ⟨(release_enables_reacquisition Kernel.empty [1, 2, 3]).1 (fun _ hi => nomatch hi),
    (release_enables_reacquisition Kernel.empty [1, 2, 3]).2 rfl⟩

/-! ### Mutual exclusion of the socket guard -/

theorem sock_inv_update (s : Sock.State) (p : Pid) (k2 : Kernel) (pc2 : Sock.Pc)
    (hwf : k2.FreshFiles)
    (hother : ∀ q fd, q ≠ p → (s.pc q).desc = some fd →
      k2.socks fd = some q ∧ k2.files fd = none ∧ fd < k2.nextFd)
    (hself : ∀ fd, pc2.desc = some fd →
      k2.socks fd = some p ∧ k2.files fd = none ∧ fd < k2.nextFd)
    (hbo : ∀ q fd, q ≠ p → s.pc q = .holding fd → k2.bound Sock.lockAddr = some fd)
    (hbs : ∀ fd, pc2 = .holding fd → k2.bound Sock.lockAddr = some fd) :
    Sock.Inv ⟨k2, upd s.pc p pc2⟩ := by
  refine ⟨hwf, ?_, ?_⟩
  · intro q fd hq
    by_cases hqp : q = p
    · subst hqp
      simp only [upd_same] at hq
      exact hself fd hq
    · simp only [upd_other _ _ _ _ hqp] at hq
      exact hother q fd hqp hq
  · intro q fd hq
    by_cases hqp : q = p
    · subst hqp
      simp only [upd_same] at hq
      exact hbs fd hq
    · simp only [upd_other _ _ _ _ hqp] at hq
      exact hbo q fd hqp hq

theorem sys_bind_lock (k : Kernel) (fd : Fd) (q : Pid) (hs : k.socks fd = some q) :
    Sock.sys_bind k fd (Sock.mkAddr Sock.LOCK_NAME).1 (Sock.mkAddr Sock.LOCK_NAME).2 none =
      match k.bound Sock.lockAddr with
      | some _ => (.error EADDRINUSE, k)
      | none => (.ok (), { k with bound := upd k.bound Sock.lockAddr (some fd) }) := by
  simp only [Sock.sys_bind, hs, if_neg lock_addr_abstract.2, if_pos lock_addr_abstract.1]
  rfl

theorem desc_holding (pc : Sock.Pc) (fd : Fd) (h : pc = .holding fd) : pc.desc = some fd := by
  subst h; rfl

theorem sock_inv_close (s : Sock.State) (p : Pid) (fd : Fd) (pc2 : Sock.Pc)
    (hI : Sock.Inv s) (hd : (s.pc p).desc = some fd) (hpc2 : pc2.desc = none) :
    Sock.Inv ⟨sys_close s.kernel fd, upd s.pc p pc2⟩ := by
  obtain ⟨hwf, hdesc, hbound⟩ := hI
  obtain ⟨hsp, -, -⟩ := hdesc p fd hd
  have hne : ∀ q fdq, q ≠ p → (s.pc q).desc = some fdq → fdq ≠ fd := by
    intro q fdq hqp hq hfd
    obtain ⟨hsq, -, -⟩ := hdesc q fdq hq
    rw [hfd, hsp] at hsq
    exact hqp (Option.some.inj hsq).symm
  apply sock_inv_update
  · intro x hx
    by_cases hxf : x = fd
    · simp [sys_close, hxf]
    · simp only [sys_close, upd_other _ _ _ _ hxf]
      exact hwf x hx
  · intro q fdq hqp hq
    obtain ⟨hsq, hfq, hlt⟩ := hdesc q fdq hq
    have hfd := hne q fdq hqp hq
    refine ⟨?_, ?_, hlt⟩
    · simp only [sys_close, upd_other _ _ _ _ hfd]; exact hsq
    · simp only [sys_close, upd_other _ _ _ _ hfd]; exact hfq
  · intro x hx
    rw [hpc2] at hx
    cases hx
  · intro q fdq hqp hq
    have hfd := hne q fdq hqp (desc_holding _ _ hq)
    have hb := hbound q fdq hq
    simp only [sys_close, hb]
    rw [if_neg (fun h => hfd (Option.some.inj h))]
  · intro x hx
    subst hx
    cases hpc2

theorem sock_inv_step (s : Sock.State) (ev : Sock.Event) (hI : Sock.Inv s) :
    Sock.Inv (Sock.step s ev) := by
  obtain ⟨hwf, hdesc, hbound⟩ := hI
  unfold Sock.step
  cases hpc : s.pc ev.p with
  | start =>
    cases hfault : ev.fault with
    | some e =>
      simp only [Sock.sys_socket]
      apply sock_inv_update
      · exact hwf
      · intro q fd _ hq; exact hdesc q fd hq
      · intro fd hfd; cases hfd
      · intro q fd _ hq; exact hbound q fd hq
      · intro fd hfd; cases hfd
    | none =>
      simp only [Sock.sys_socket]
      apply sock_inv_update
      · intro x hx
        exact hwf x (Nat.le_of_succ_le hx)
      · intro q fd _ hq
        obtain ⟨hsq, hfq, hlt⟩ := hdesc q fd hq
        refine ⟨?_, hfq, Nat.lt_succ_of_lt hlt⟩
        simp only [upd_other _ _ _ _ (Nat.ne_of_lt hlt)]
        exact hsq
      · intro fd hfd
        simp only [Sock.Pc.desc, Option.some.injEq] at hfd
        subst hfd
        exact ⟨upd_same _ _ _, hwf _ (Nat.le_refl _), Nat.lt_succ_self _⟩
      · intro q fd _ hq; exact hbound q fd hq
      · intro fd hfd; cases hfd
  | created fd =>
    have hd : (s.pc ev.p).desc = some fd := by rw [hpc]; rfl
    obtain ⟨hsp, hfp, hlt⟩ := hdesc ev.p fd hd
    cases hfault : ev.fault with
    | some e =>
      simp only [Sock.sys_bind]
      apply sock_inv_update
      · exact hwf
      · intro q fdq _ hq; exact hdesc q fdq hq
      · intro x hx
        simp only [Sock.Pc.desc, Option.some.injEq] at hx
        subst hx
        exact ⟨hsp, hfp, hlt⟩
      · intro q fdq _ hq; exact hbound q fdq hq
      · intro x hx; cases hx
    | none =>
      dsimp only
      rw [sys_bind_lock s.kernel fd ev.p hsp]
      cases hb : s.kernel.bound Sock.lockAddr with
      | some o =>
        apply sock_inv_update
        · exact hwf
        · intro q fdq _ hq; exact hdesc q fdq hq
        · intro x hx
          simp only [Sock.Pc.desc, Option.some.injEq] at hx
          subst hx
          exact ⟨hsp, hfp, hlt⟩
        · intro q fdq _ hq; exact hbound q fdq hq
        · intro x hx; cases hx
      | none =>
        apply sock_inv_update
        · exact hwf
        · intro q fdq _ hq; exact hdesc q fdq hq
        · intro x hx
          simp only [Sock.Pc.desc, Option.some.injEq] at hx
          subst hx
          exact ⟨hsp, hfp, hlt⟩
        · intro q fdq _ hq
          have := hbound q fdq hq
          rw [hb] at this
          cases this
        · intro x hx
          simp only [Sock.Pc.holding.injEq] at hx
          subst hx
          exact upd_same s.kernel.bound Sock.lockAddr (some fd)
  | holding fd =>
    exact sock_inv_close s ev.p fd _ ⟨hwf, hdesc, hbound⟩ (by rw [hpc]; rfl) rfl
  | failing fd d =>
    exact sock_inv_close s ev.p fd _ ⟨hwf, hdesc, hbound⟩ (by rw [hpc]; rfl) rfl
  | stopping st d =>
    have hnone : ∀ q fdq, q ≠ ev.p → (s.pc q).desc = some fdq →
        ownedBy s.kernel ev.p fdq = false := by
      intro q fdq hqp hq
      obtain ⟨hsq, hfq, -⟩ := hdesc q fdq hq
      simp only [ownedBy, hfq, hsq, Bool.false_or, decide_eq_false_iff_not, Option.some.injEq]
      exact hqp
    apply sock_inv_update
    · intro x hx
      simp [sys_exit, hwf x hx]
    · intro q fdq hqp hq
      obtain ⟨hsq, hfq, hlt⟩ := hdesc q fdq hq
      refine ⟨?_, ?_, hlt⟩
      · simp only [sys_exit, hsq, Option.some.injEq]
        rw [if_neg hqp]
      · simp [sys_exit, hfq]
    · intro x hx; cases hx
    · intro q fdq hqp hq
      have hb := hbound q fdq hq
      have ho := hnone q fdq hqp (desc_holding _ _ hq)
      simp [sys_exit, hb, ho]
    · intro x hx; cases hx
  | exited st d => exact ⟨hwf, hdesc, hbound⟩

theorem sock_inv_run (evs : List Sock.Event) : ∀ s : Sock.State, Sock.Inv s →
    Sock.Inv (Sock.run s evs) := by
  induction evs with
  | nil => intro s h; exact h
  | cons ev rest ih =>
    intro s h
    exact ih (Sock.step s ev) (sock_inv_step s ev h)

theorem sock_inv_initial (k : Kernel) (h : k.FreshFiles) : Sock.Inv (Sock.State.initial k) := by
  refine ⟨h, ?_, ?_⟩
  · intro p fd hp; cases hp
  · intro p fd hp; cases hp

theorem sock_bind_while_bound (s : Sock.State) (hI : Sock.Inv s) (q : Pid) (fd : Fd)
    (hq : s.pc q = .created fd) (hb : s.kernel.bound Sock.lockAddr ≠ none) :
    (Sock.step s ⟨q, none⟩).pc q = .failing fd (Diag.text Sock.MSG_RUNNING) ∧
      (Sock.run s [⟨q, none⟩, ⟨q, none⟩, ⟨q, none⟩]).pc q
        = .exited EXIT_FAILURE (some (Diag.text Sock.MSG_RUNNING)) := by
  obtain ⟨-, hdesc, -⟩ := hI
  have hs := (hdesc q fd (by rw [hq]; rfl)).1
  obtain ⟨o, ho⟩ := Option.ne_none_iff_exists'.1 hb
  have hstep : Sock.step s ⟨q, none⟩
      = ⟨s.kernel, upd s.pc q (.failing fd (Diag.text Sock.MSG_RUNNING))⟩ := by
    simp only [Sock.step, hq]
    rw [sys_bind_lock _ fd q hs, ho]
    rfl
  refine ⟨by rw [hstep]; exact upd_same _ _ _, ?_⟩
  show (Sock.step (Sock.step (Sock.step s ⟨q, none⟩) ⟨q, none⟩) ⟨q, none⟩).pc q = _
  rw [hstep]
  simp [Sock.step]

theorem sock_init_while_bound (k : Kernel) (q : Pid)
    (hb : k.bound Sock.lockAddr ≠ none) :
    (Sock.init_application_lock k q Sock.Env.ok).isAlreadyRunning Sock.MSG_RUNNING = true := by
  obtain ⟨o, ho⟩ := Option.ne_none_iff_exists'.1 hb
  have hk : ({ k with socks := upd k.socks k.nextFd (some q), nextFd := k.nextFd + 1 }
      : Kernel).bound Sock.lockAddr = some o := ho
  simp only [Sock.init_application_lock, Sock.Env.ok, Sock.sys_socket]
  rw [sys_bind_lock _ k.nextFd q (upd_same _ _ _), hk]
  simp [Result.isAlreadyRunning, Sock.bindDiag]

/-- C2 (mutual exclusion of the socket guard).  Let any number of processes
run the socket program, each system call (`socket`, `bind`, `close`, process
exit) being one atomic step, under any schedule and any environment faults,
from any kernel state whose unallocated descriptors are unused.  In the state
reached, at most one process has returned successfully from
`init_application_lock` without having completed
`cleanup_application_lock`; and, the kernel deciding the outcome of `bind`,
every process whose `bind` is attempted while the lock name is bound fails
with the already-running diagnostic (and goes on to `close` and
`exit(EXIT_FAILURE)`, never becoming a holder); in particular a whole call of
`init_application_lock` made in a state in which the name is bound ends with
the already-running outcome. -/
theorem socket_mutual_exclusion (k0 : Kernel) (hfresh : k0.FreshFiles)
    (evs : List Sock.Event) :
    (∀ p q, Sock.isHolder (Sock.run (Sock.State.initial k0) evs) p = true →
      Sock.isHolder (Sock.run (Sock.State.initial k0) evs) q = true → p = q) ∧
    (∀ q fd, (Sock.run (Sock.State.initial k0) evs).pc q = .created fd →
      (Sock.run (Sock.State.initial k0) evs).kernel.bound Sock.lockAddr ≠ none →
      (Sock.step (Sock.run (Sock.State.initial k0) evs) ⟨q, none⟩).pc q
          = .failing fd (Diag.text Sock.MSG_RUNNING) ∧
        (Sock.run (Sock.run (Sock.State.initial k0) evs)
          [⟨q, none⟩, ⟨q, none⟩, ⟨q, none⟩]).pc q
          = .exited EXIT_FAILURE (some (Diag.text Sock.MSG_RUNNING))) ∧
    (∀ q, (Sock.run (Sock.State.initial k0) evs).kernel.bound Sock.lockAddr ≠ none →
      (Sock.init_application_lock (Sock.run (Sock.State.initial k0) evs).kernel q
        Sock.Env.ok).isAlreadyRunning Sock.MSG_RUNNING = true) := by
  obtain ⟨hwf, hdesc, hbound⟩ := sock_inv_run evs _ (sock_inv_initial k0 hfresh)
  refine ⟨?_, ?_, fun q hb => sock_init_while_bound _ q hb⟩
  · intro p q hp hq
    unfold Sock.isHolder at hp hq
    cases hpp : (Sock.run (Sock.State.initial k0) evs).pc p with
    | holding fdp =>
      cases hpq : (Sock.run (Sock.State.initial k0) evs).pc q with
      | holding fdq =>
        have h1 := hbound p fdp hpp
        have h2 := hbound q fdq hpq
        rw [h1] at h2
        have hfd : fdp = fdq := Option.some.inj h2
        have h3 := (hdesc p fdp (desc_holding _ _ hpp)).1
        have h4 := (hdesc q fdq (desc_holding _ _ hpq)).1
        rw [← hfd, h3] at h4
        exact Option.some.inj h4
      | _ => simp [hpq] at hq
    | _ => simp [hpp] at hp
  · intro q fd hq hb
    exact sock_bind_while_bound _ ⟨hwf, hdesc, hbound⟩ q fd hq hb

/-- C2, witness: from the empty kernel, process 1
acquires and process 2 gets as far as `socket`. -/
theorem socket_mutual_exclusion_witness :
    (∀ p q,
      Sock.isHolder (Sock.run (Sock.State.initial Kernel.empty)
        [⟨1, none⟩, ⟨1, none⟩, ⟨2, none⟩]) p = true →
      Sock.isHolder (Sock.run (Sock.State.initial Kernel.empty)
        [⟨1, none⟩, ⟨1, none⟩, ⟨2, none⟩]) q = true → p = q) ∧
    ((Sock.step (Sock.run (Sock.State.initial Kernel.empty)
        [⟨1, none⟩, ⟨1, none⟩, ⟨2, none⟩]) ⟨2, none⟩).pc 2
          = .failing 4 (Diag.text Sock.MSG_RUNNING) ∧
      (Sock.run (Sock.run (Sock.State.initial Kernel.empty)
        [⟨1, none⟩, ⟨1, none⟩, ⟨2, none⟩]) [⟨2, none⟩, ⟨2, none⟩, ⟨2, none⟩]).pc 2
          = .exited EXIT_FAILURE (some (Diag.text Sock.MSG_RUNNING))) :=
  ⟨(socket_mutual_exclusion Kernel.empty (fun _ _ => rfl)
      [⟨1, none⟩, ⟨1, none⟩, ⟨2, none⟩]).1,
    (socket_mutual_exclusion Kernel.empty (fun _ _ => rfl)
      [⟨1, none⟩, ⟨1, none⟩, ⟨2, none⟩]).2.1 2 4 (by decide) (by decide)⟩

/-! ### The interleaved programs agree with the functions -/

/-- Running the four steps of one process without interruption is the call of
the file guard's `init_application_lock`. -/
theorem flock_steps_agree (s : Flock.State) (p : Pid) (env : Flock.Env) (fd : Fd)
    (hstart : s.pc p = .start)
    (hret : (Flock.init_application_lock s.kernel p env).outcome = .returned fd) :
    (Flock.run s [.run p env.f_open, .run p env.f_flock, .run p env.f_ftruncate,
        .run p env.f_write]).kernel = (Flock.init_application_lock s.kernel p env).kernel ∧
      (Flock.run s [.run p env.f_open, .run p env.f_flock, .run p env.f_ftruncate,
        .run p env.f_write]).pc p = .holding fd := by
  obtain ⟨k1, k2, ho, hf, hk⟩ := flock_init_returned s.kernel p env fd hret
  rw [hk]
  simp [Flock.run, Flock.step, hstart, ho, hf]

/-- Running the two steps of one process without interruption is the call of
the socket guard's `init_application_lock`. -/
theorem sock_steps_agree (s : Sock.State) (p : Pid) (env : Sock.Env) (fd : Fd)
    (hstart : s.pc p = .start)
    (hret : (Sock.init_application_lock s.kernel p env).outcome = .returned fd) :
    (Sock.run s [⟨p, env.f_socket⟩, ⟨p, env.f_bind⟩]).kernel
        = (Sock.init_application_lock s.kernel p env).kernel ∧
      (Sock.run s [⟨p, env.f_socket⟩, ⟨p, env.f_bind⟩]).pc p = .holding fd := by
  unfold Sock.init_application_lock at hret ⊢
  rcases ho : Sock.sys_socket s.kernel p env.f_socket with ⟨e | fd1, k1⟩
  · simp [ho] at hret
  · simp only [ho] at hret ⊢
    rcases hf : Sock.sys_bind k1 fd1 (Sock.mkAddr Sock.LOCK_NAME).1
      (Sock.mkAddr Sock.LOCK_NAME).2 env.f_bind with ⟨e | u, k2⟩
    · simp [hf] at hret
    · simp only [hf, Outcome.returned.injEq] at hret ⊢
      subst hret
      simp [Sock.run, Sock.step, hstart, ho, hf]

end SingleInstance
